import Mathlib

/-!
Verification of the token-list aggregation and balance-cache core of the
BuiltByMom/web3 repository, shallowly embedded in Lean 4.

The embedding mirrors the following source files:
  - src/hooks/useBalances.monochain.ts  (balance cache, chunked refresh)
  - src/contexts/WithTokenList.tsx      (token-list ingestion and aggregation)
  - src/contexts/useWallet.tsx          (wallet balance controller)

Addresses are modelled as natural numbers in canonical (normalized) form,
with 0 as the zero-address sentinel. The address normalizer itself
(utils/tools.address, not part of the analysed sources) is modelled from
the spec: normalization is total and idempotent, and invalid or missing
input maps to the zero sentinel, so on the model it is the identity.
-/

/-- Modelled from the spec: the address normalizer of utils/tools.address is
not among the analysed sources. The spec states normalization is total and
idempotent with a zero sentinel for invalid input; on already-normalized
numeric addresses it is therefore the identity. -/
def toAddress (a : Nat) : Nat := a

/-- Modelled from the spec: isZeroAddress of utils/tools.is is not among the
analysed sources; it tests for the zero-address sentinel. -/
def isZeroAddress (a : Nat) : Bool := toAddress a == 0

/-- Normalized big-number value as in types/mixed.ts: raw integer amount,
normalized decimal amount and a display string. -/
structure TNormalizedBN where
  raw : Int
  normalized : Int
  display : String
deriving DecidableEq, Repr

/-- Modelled from the spec: the documented zero-value balance entry
(raw equal to 0, normalized equal to 0), the zeroNormalizedBN constant of
the utils package. -/
def zeroNormalizedBN : TNormalizedBN := { raw := 0, normalized := 0, display := "0" }

/-- Token record as in types/mixed.ts (TToken). -/
structure TToken where
  address : Nat
  name : String
  symbol : String
  decimals : Nat
  chainID : Nat
  logoURI : Option String
  value : Int
  balance : TNormalizedBN
deriving DecidableEq, Repr

/-- Chain-indexed token dictionaries (TChainTokens of types/mixed.ts),
modelled as a curried partial map from chain id and normalized address. -/
def ChainTokens : Type := Nat → Nat → Option TToken

/-- The empty TChainTokens value. -/
def emptyChainTokens : ChainTokens := fun _ _ => none

/-- Point update of a ChainTokens map at one (chain, address) key. -/
def setEntry (m : ChainTokens) (c a : Nat) (v : TToken) : ChainTokens :=
  fun cq aq => if cq = c ∧ aq = a then some v else m cq aq

/-- Applying one raw balance batch to a ChainTokens map under a fixed chain,
entry by entry in list order, as the for-of loops of
useBalances.monochain.ts do. The source merges with an object spread of a
complete record, which overwrites every field, hence a plain overwrite. -/
def applyRawToMap (c : Nat) (raw : List (Nat × TToken)) (m : ChainTokens) : ChainTokens :=
  raw.foldl (fun acc p => setEntry acc c p.1 p.2) m

/-- Last value written for a given address by a sequence of raw entries,
starting from a given accumulator. -/
def lastWriteFrom (acc : Option TToken) (l : List (Nat × TToken)) (a : Nat) : Option TToken :=
  l.foldl (fun st p => if p.1 = a then some p.2 else st) acc

/-- Last value written for a given address by a sequence of raw entries. -/
def lastWrite (l : List (Nat × TToken)) (a : Nat) : Option TToken :=
  lastWriteFrom none l a

/-- Mutable ref content of the monochain hook (type TDataRef of
useBalances.monochain.ts): nonce, tracked owner address, cached balances. -/
structure TDataRef where
  nonce : Nat
  address : Nat
  balances : ChainTokens

/-- Initial ref value of the hook: nonce 0, zero owner, empty balances. -/
def initialDataRef : TDataRef := { nonce := 0, address := toAddress 0, balances := emptyChainTokens }

/-- The updateBalancesCall body of useBalances.monochain.ts (lines 72 to
106) restricted to the mutable ref: reset the ref when the owner changed,
re-pin the owner, merge the incoming raw data for the given chain and bump
the nonce. -/
def updateBalancesCall (currentUserAddress : Nat) (chainID : Nat)
    (newRawData : List (Nat × TToken)) (data : TDataRef) : TDataRef :=
  let d0 : TDataRef :=
    if toAddress currentUserAddress ≠ data.address then
      { nonce := 0, address := toAddress currentUserAddress, balances := emptyChainTokens }
    else data
  let d1 : TDataRef := { d0 with address := toAddress currentUserAddress }
  { d1 with
    balances := applyRawToMap chainID newRawData d1.balances,
    nonce := d1.nonce + 1 }

/-- Hook state pairing the mutable ref with the exposed React balances
state (the data field of the hook result). -/
structure HookState where
  dataRef : TDataRef
  exposed : ChainTokens

/-- Initial hook state. -/
def initialHookState : HookState := { dataRef := initialDataRef, exposed := emptyChainTokens }

/-- Full effect of one updateBalancesCall invocation (lines 72 to 106):
update the ref, then merge the refreshed chain slice of the ref cache into
the previous exposed state, leaving other chains of the exposed state
untouched, exactly as the set_balances functional update spreads the
previous value. -/
def updateBalancesCallFull (currentUserAddress : Nat) (chainID : Nat)
    (newRawData : List (Nat × TToken)) (s : HookState) : HookState :=
  let d := updateBalancesCall currentUserAddress chainID newRawData s.dataRef
  { dataRef := d,
    exposed := fun cq aq =>
      if cq = chainID then
        match d.balances chainID aq with
        | some v => some v
        | none => s.exposed cq aq
      else s.exposed cq aq }

/-- A concrete token value used in concrete scenarios. -/
def mkTok (a : Nat) (sym : String) : TToken :=
  { address := a, name := sym, symbol := sym, decimals := 18, chainID := 1,
    logoURI := none, value := 0, balance := zeroNormalizedBN }

section CacheLemmas

/-- Folding raw entries never touches a chain other than the written one. -/
theorem applyRawToMap_ne (c : Nat) (l : List (Nat × TToken)) (m : ChainTokens)
    (cq aq : Nat) (h : cq ≠ c) : applyRawToMap c l m cq aq = m cq aq := by
  induction l generalizing m with
  | nil => rfl
  | cons p l ih =>
      show applyRawToMap c l (setEntry m c p.1 p.2) cq aq = m cq aq
      rw [ih (setEntry m c p.1 p.2)]
      simp [setEntry, h]

/-- Folding from an accumulator factors through the fold from none. -/
theorem lastWriteFrom_eq (acc : Option TToken) (l : List (Nat × TToken)) (a : Nat) :
    lastWriteFrom acc l a =
      match lastWrite l a with
      | some v => some v
      | none => acc := by
  induction l generalizing acc with
  | nil => cases acc <;> rfl
  | cons p l ih =>
      show lastWriteFrom (if p.1 = a then some p.2 else acc) l a = _
      rw [ih]
      show _ = match lastWriteFrom (if p.1 = a then some p.2 else none) l a with
        | some v => some v
        | none => acc
      rw [ih (if p.1 = a then some p.2 else none)]
      by_cases h : p.1 = a
      · simp [h]
        cases lastWrite l a <;> rfl
      · simp [h]
        cases lastWrite l a <;> rfl

/-- Lookup of a raw-batch application on the written chain is the last
written value, falling back to the previous map. -/
theorem applyRawToMap_eq (c : Nat) (l : List (Nat × TToken)) (m : ChainTokens) (a : Nat) :
    applyRawToMap c l m c a =
      match lastWrite l a with
      | some v => some v
      | none => m c a := by
  induction l generalizing m with
  | nil => rfl
  | cons p l ih =>
      show applyRawToMap c l (setEntry m c p.1 p.2) c a = _
      rw [ih (setEntry m c p.1 p.2)]
      show _ = match lastWriteFrom (if p.1 = a then some p.2 else none) l a with
        | some v => some v
        | none => m c a
      rw [lastWriteFrom_eq]
      by_cases h : p.1 = a
      · subst h
        cases hl : lastWrite l p.1 <;> simp [hl, setEntry]
      · have hq : ¬a = p.1 := fun hq => h hq.symm
        cases hl : lastWrite l a <;> simp [hl, setEntry, h, hq]

/-- Any value reported by lastWrite occurs as an entry of the list. -/
theorem lastWrite_mem (l : List (Nat × TToken)) (a : Nat) (v : TToken)
    (h : lastWrite l a = some v) : (a, v) ∈ l := by
  induction l with
  | nil => exact absurd h (by simp [lastWrite, lastWriteFrom])
  | cons p l ih =>
      have hc : lastWrite (p :: l) a =
          match lastWrite l a with
          | some w => some w
          | none => if p.1 = a then some p.2 else none := by
        show lastWriteFrom (if p.1 = a then some p.2 else none) l a = _
        rw [lastWriteFrom_eq]
      rw [hc] at h
      cases hl : lastWrite l a with
      | some w =>
          rw [hl] at h
          exact List.mem_cons_of_mem p (ih (hl.trans (by simpa using h)))
      | none =>
          rw [hl] at h
          by_cases hp : p.1 = a
          · simp [hp] at h
            obtain ⟨p1, p2⟩ := p
            simp_all
          · simp [hp] at h

end CacheLemmas

/-- Token descriptor handed to the balance fetcher
(TUseBalancesTokens of useBalances.monochain.ts). The optional for field of
the source type carries no semantics in the analysed code paths and is
omitted. -/
structure BalTok where
  address : Nat
  chainID : Nat
  decimals : Option Nat
  name : Option String
  symbol : Option String
deriving DecidableEq, Repr

/-- The 500-wide chunking loop of useBalances.monochain.ts
(for i in steps of 500, push tokens.slice(i, i + 500)). -/
def chunk500 : List BalTok → List (List BalTok)
  | [] => []
  | t :: ts => (t :: ts).take 500 :: chunk500 ((t :: ts).drop 500)
termination_by l => l.length
decreasing_by
  simp only [List.length_drop, List.length_cons]
  omega

/-- Deduplication by normalized address keeping the first occurrence, as the
alreadyAdded guard of useBalances.monochain.ts does; seen is the set of
addresses already admitted. -/
def dedupFirst (seen : List Nat) : List BalTok → List BalTok
  | [] => []
  | t :: ts =>
      if toAddress t.address ∈ seen then dedupFirst seen ts
      else t :: dedupFirst (toAddress t.address :: seen) ts

/-- Result of one call of the external balance read service
(getBalances of useBalances.multichains, a collaborator outside the
analysed sources). Modelled from the spec: fetchBalances returns a partial
mapping from address to balance entry together with an optional error. -/
structure FetchResult where
  raw : List (Nat × TToken)
  err : Option String

/-- State threaded through the per-chunk loop of onUpdate
(useBalances.monochain.ts lines 158 to 187). -/
structure LoopState where
  dataRef : TDataRef
  updated : ChainTokens
  errState : Option String

/-- One iteration of the per-chunk loop of onUpdate: call the fetcher,
record a truthy error, reset the ref when the owner changed, merge the raw
result into both the local updated map and the ref cache, bump the nonce. -/
def onUpdateStep (fetch : List BalTok → FetchResult) (chainID userAddress : Nat)
    (st : LoopState) (chunkTokens : List BalTok) : LoopState :=
  let fr := fetch chunkTokens
  let errNext : Option String :=
    match fr.err with
    | some e => some e
    | none => st.errState
  let d0 : TDataRef :=
    if toAddress userAddress ≠ st.dataRef.address then
      { nonce := 0, address := toAddress userAddress, balances := emptyChainTokens }
    else st.dataRef
  let d1 : TDataRef := { d0 with address := toAddress userAddress }
  { dataRef := { d1 with
      balances := applyRawToMap chainID fr.raw d1.balances,
      nonce := d1.nonce + 1 },
    updated := applyRawToMap chainID fr.raw st.updated,
    errState := errNext }

/-- Result of a full onUpdate run: the returned updated mapping, the final
ref state, the list of batches issued to the fetcher in order, and the last
recorded error. -/
structure OnUpdateOut where
  updated : ChainTokens
  dataRef : TDataRef
  batches : List (List BalTok)
  errState : Option String

/-- The onUpdate callback of useBalances.monochain.ts (lines 114 to 202) as
a pure function over an explicit fetch oracle: drop zero addresses, return
the empty mapping when nothing remains, keep tokens of the active chain
deduplicated by normalized address keeping the first occurrence, slice the
remainder into 500-wide batches and run them through the per-chunk loop in
order. The 5000-wide chunks computed at lines 127 to 130 are shadowed and
never used, so they do not appear. -/
def onUpdate (fetch : List BalTok → FetchResult) (chainID userAddress : Nat)
    (tokenList : List BalTok) (data0 : TDataRef) : OnUpdateOut :=
  let tokens := tokenList.filter (fun t => !(isZeroAddress t.address))
  if tokens.length = 0 then
    { updated := emptyChainTokens, dataRef := data0, batches := [], errState := none }
  else
    let perChain := dedupFirst [] (tokens.filter (fun t => t.chainID == chainID))
    let chunks := chunk500 perChain
    let final := chunks.foldl (onUpdateStep fetch chainID userAddress)
      { dataRef := data0, updated := emptyChainTokens, errState := none }
    { updated := final.updated, dataRef := final.dataRef,
      batches := chunks, errState := final.errState }

/-- Batches issued by the automatic refresh trigger of
useBalances.monochain.ts (lines 299 to 345): the trigger keeps tokens of
the active chain deduplicated by normalized address, with no zero-address
filter, and slices them into 500-wide batches. -/
def triggerBatches (chainID : Nat) (tokens : List BalTok) : List (List BalTok) :=
  chunk500 (dedupFirst [] (tokens.filter (fun t => t.chainID == chainID)))

section OnUpdateLemmas

/-- The chunking loop produces the ceiling of the length divided by 500. -/
theorem chunk500_length (l : List BalTok) :
    (chunk500 l).length = (l.length + 499) / 500 := by
  induction l using chunk500.induct with
  | case1 => simp [chunk500]
  | case2 t ts ih =>
      rw [chunk500]
      simp only [List.length_cons, ih, List.length_drop]
      rcases Nat.lt_or_ge (ts.length + 1) 500 with h | h
      · have h1 : ts.length + 1 - 500 = 0 := by omega
        have h2 : (ts.length + 1 + 499) / 500 = 1 := by
          apply Nat.div_eq_of_lt_le <;> omega
        simp [h1, h2]
      · have h1 : ts.length + 1 - 500 + 499 = ts.length := by omega
        have h2 : ts.length + 1 + 499 = ts.length + 500 := by omega
        rw [h1, h2, Nat.add_div_right _ (by norm_num)]

/-- Every chunk has at most 500 elements. -/
theorem chunk500_mem_length (l : List BalTok) (b : List BalTok)
    (hb : b ∈ chunk500 l) : b.length ≤ 500 := by
  induction l using chunk500.induct with
  | case1 => simp [chunk500] at hb
  | case2 t ts ih =>
      rw [chunk500] at hb
      rcases List.mem_cons.mp hb with h | h
      · subst h
        simp [List.length_take]
      · exact ih h

/-- Every element of a chunk comes from the chunked list. -/
theorem chunk500_mem_sub (l : List BalTok) (b : List BalTok) (t : BalTok)
    (hb : b ∈ chunk500 l) (ht : t ∈ b) : t ∈ l := by
  induction l using chunk500.induct with
  | case1 => simp [chunk500] at hb
  | case2 x xs ih =>
      rw [chunk500] at hb
      rcases List.mem_cons.mp hb with h | h
      · subst h
        exact List.mem_of_mem_take ht
      · exact List.mem_of_mem_drop (ih h)

end OnUpdateLemmas

/-- Token entry of a token-list document
(TTokenList.tokens of types/mixed.ts). Legacy and multichain document
variants spell the chain id field differently, so both spellings are
carried as optional fields; absent means the document does not carry that
spelling. -/
structure TListToken where
  address : Nat
  name : String
  symbol : String
  decimals : Nat
  chainId : Option Nat
  chainID : Option Nat
  logoURI : Option String
deriving DecidableEq, Repr

/-- Registry entry built by WithTokenList.tsx ingestion: the TToken shape
of that file, with the chain id exactly as the ingestion code computed it
(possibly absent, mirroring an undefined chain key) and the zero price and
balance placeholders. -/
structure RToken where
  address : Nat
  name : String
  symbol : String
  decimals : Nat
  chainID : Option Nat
  logoURI : Option String
  value : Int
  price : TNormalizedBN
  balance : TNormalizedBN
deriving DecidableEq, Repr

/-- Registry snapshot: chain key (none mirrors the stringified undefined
key a document without the expected chain field produces) to normalized
address to entry. -/
def Registry : Type := Option Nat → Nat → Option RToken

/-- The empty registry. -/
def emptyRegistry : Registry := fun _ _ => none

/-- Point update of a registry at one (chain key, address) key. -/
def updateReg (m : Registry) (k : Option Nat) (a : Nat) (v : RToken) : Registry :=
  fun kq aq => if kq = k ∧ aq = a then some v else m kq aq

/-- One ingestion step shared by the three WithTokenList.tsx ingestion
loops: insert the token under its chain key and normalized address only
when that key is still absent (the if-not-present guard), so the first
occurrence wins within one ingestion tier. -/
def ingestStep (key : TListToken → Option Nat) (mk : TListToken → RToken)
    (m : Registry) (t : TListToken) : Registry :=
  if m (key t) (toAddress t.address) = none then
    updateReg m (key t) (toAddress t.address) (mk t)
  else m

/-- Chain key used by the base-list ingestion (WithTokenList.tsx lines 77
to 95): only the chainId spelling is read. -/
def keyBase (t : TListToken) : Option Nat := t.chainId

/-- Chain key used by the extra-list ingestion (lines 104 to 134):
chainId, falling back to chainID. -/
def keyExtra (t : TListToken) : Option Nat := t.chainId <|> t.chainID

/-- Chain key used by the custom-token ingestion (lines 141 to 168):
chainID, falling back to chainId. -/
def keyCustom (t : TListToken) : Option Nat := t.chainID <|> t.chainId

/-- Registry entry built by the base-list ingestion: chain id taken from
the chainId spelling only. -/
def mkBaseToken (t : TListToken) : RToken :=
  { address := t.address, name := t.name, symbol := t.symbol,
    decimals := t.decimals, chainID := t.chainId, logoURI := t.logoURI,
    value := 0, price := zeroNormalizedBN, balance := zeroNormalizedBN }

/-- Registry entry built by the extra-list ingestion: the stored chain id
prefers the chainID spelling (line 124), while the map key prefers
chainId. -/
def mkExtraToken (t : TListToken) : RToken :=
  { address := t.address, name := t.name, symbol := t.symbol,
    decimals := t.decimals, chainID := t.chainID <|> t.chainId, logoURI := t.logoURI,
    value := 0, price := zeroNormalizedBN, balance := zeroNormalizedBN }

/-- Registry entry built by the custom-token ingestion: chain id prefers
the chainID spelling (line 158), as the map key does. -/
def mkCustomToken (t : TListToken) : RToken :=
  { address := t.address, name := t.name, symbol := t.symbol,
    decimals := t.decimals, chainID := t.chainID <|> t.chainId, logoURI := t.logoURI,
    value := 0, price := zeroNormalizedBN, balance := zeroNormalizedBN }

/-- Base-list ingestion over the flattened token sequence of all fulfilled
base documents (WithTokenList.tsx lines 77 to 95). -/
def ingestBaseTokens (l : List TListToken) : Registry :=
  l.foldl (ingestStep keyBase mkBaseToken) emptyRegistry

/-- Extra-list ingestion over the flattened token sequence of all fulfilled
extra documents (lines 104 to 134). -/
def ingestExtraTokens (l : List TListToken) : Registry :=
  l.foldl (ingestStep keyExtra mkExtraToken) emptyRegistry

/-- Custom-token ingestion over the user-added token descriptors
(lines 141 to 168). -/
def ingestCustomTokens (l : List TListToken) : Registry :=
  l.foldl (ingestStep keyCustom mkCustomToken) emptyRegistry

/-- The aggregatedTokenList memo (lines 174 to 203): tiers are written in
the order base, extra, custom with unconditional assignment, so on a shared
key the later tier wins. Each tier re-keys its entries by the normalized
stored address, which coincides with the ingestion key because ingestion
already keyed by the normalized address and normalization is idempotent. -/
def aggregatedRegistry (base extra custom : Registry) : Registry :=
  fun k a =>
    match custom k a with
    | some v => some v
    | none =>
      match extra k a with
      | some v => some v
      | none => base k a

/-- Outcome of one base-list URI fetch as Promise.allSettled reports it:
rejected, or fulfilled carrying a response body that either is a
well-formed list document or is not (none models a body without a tokens
array, as a malformed JSON payload served with status 200 yields). -/
inductive FetchOutcome where
  | rejected : FetchOutcome
  | fulfilled : Option (List TListToken) → FetchOutcome

/-- The token-collection loop of the base-list trigger (lines 70 to 75):
rejected outcomes are skipped; a fulfilled outcome spreads the tokens array
of its body, which throws when the body has none, aborting the whole
trigger before any state update. -/
def collectBaseTokens : List FetchOutcome → Except Unit (List TListToken)
  | [] => Except.ok []
  | FetchOutcome.rejected :: rest => collectBaseTokens rest
  | FetchOutcome.fulfilled none :: _ => Except.error ()
  | FetchOutcome.fulfilled (some doc) :: rest =>
      (collectBaseTokens rest).map (fun ts => doc ++ ts)

/-- Base-list ingestion from per-URI outcomes: collect the tokens of the
fulfilled documents, then build the base tier; an aborted collection yields
no registry at all (set_tokenList is never reached). -/
def buildBaseFromOutcomes (outs : List FetchOutcome) : Except Unit Registry :=
  (collectBaseTokens outs).map ingestBaseTokens

/-- Conversion applied by useWallet.tsx to each token of an externally
supplied token mapping before a balance fetch (lines 118 to 126). -/
def toBalTok (t : TToken) : BalTok :=
  { address := toAddress t.address, chainID := t.chainID,
    decimals := some t.decimals, name := some t.name, symbol := some t.symbol }

/-- The onRefreshWithList callback of useWallet.tsx (lines 114 to 136):
keep only the tokens whose address matches no available token (the chain id
is not consulted), refresh those when any remain, otherwise return the
current balances unchanged. -/
def onRefreshWithList (availableTokens : List BalTok) (balances : ChainTokens)
    (onRefresh : List BalTok → ChainTokens) (newTokenList : List TToken) : ChainTokens :=
  let tokens := newTokenList.map toBalTok
  let tokensToFetch := tokens.filter
    (fun t => !(availableTokens.any (fun av => av.address == t.address)))
  if 0 < tokensToFetch.length then onRefresh tokensToFetch else balances

/-- Modelled from the spec: DEFAULT_ERC20, the documented empty default
token of the utils package, returned by getToken when no entry is found. -/
def DEFAULT_ERC20 : TToken :=
  { address := 0, name := "", symbol := "", decimals := 18, chainID := 1,
    logoURI := none, value := 0, balance := zeroNormalizedBN }

/-- The getToken callback of useWallet.tsx (lines 152 to 155): a falsy
chain id falls back to chain 1 through the logical-or, absent entries fall
back to the default token. -/
def walletGetToken (balances : ChainTokens) (address chainID : Nat) : TToken :=
  match balances (if chainID = 0 then 1 else chainID) address with
  | some t => t
  | none => DEFAULT_ERC20

/-- The getBalance callback of useWallet.tsx (lines 160 to 164): a falsy
chain id falls back to chain 1, absent entries fall back to the zero-value
balance. -/
def walletGetBalance (balances : ChainTokens) (address chainID : Nat) : TNormalizedBN :=
  match balances (if chainID = 0 then 1 else chainID) address with
  | some t => t.balance
  | none => zeroNormalizedBN

section SupportLemmas

/-- Applying a concatenation of raw batches is applying them in sequence. -/
theorem applyRawToMap_append (c : Nat) (l1 l2 : List (Nat × TToken)) (m : ChainTokens) :
    applyRawToMap c (l1 ++ l2) m = applyRawToMap c l2 (applyRawToMap c l1 m) := by
  simp [applyRawToMap, List.foldl_append]

/-- The updated map built by the per-chunk loop is the application of all
raw batch results in order; batch errors do not influence it. -/
theorem foldl_onUpdateStep_updated (fetch : List BalTok → FetchResult) (c u : Nat)
    (chunks : List (List BalTok)) (st : LoopState) :
    (chunks.foldl (onUpdateStep fetch c u) st).updated =
      applyRawToMap c ((chunks.map (fun b => (fetch b).raw)).flatten) st.updated := by
  induction chunks generalizing st with
  | nil => rfl
  | cons b bs ih =>
      show (bs.foldl (onUpdateStep fetch c u) (onUpdateStep fetch c u st b)).updated = _
      rw [ih]
      rw [List.map_cons, List.flatten_cons, applyRawToMap_append]
      rfl

/-- An ingestion fold never overwrites an already present registry entry. -/
theorem ingest_foldl_pres (key : TListToken → Option Nat) (mk : TListToken → RToken)
    (l : List TListToken) (m : Registry) (k : Option Nat) (a : Nat)
    (h : (m k a).isSome) :
    (l.foldl (ingestStep key mk) m) k a = m k a := by
  induction l generalizing m with
  | nil => rfl
  | cons t l ih =>
      show (l.foldl (ingestStep key mk) (ingestStep key mk m t)) k a = m k a
      have hstep : (ingestStep key mk m t) k a = m k a := by
        unfold ingestStep
        by_cases hc : m (key t) (toAddress t.address) = none
        · rw [if_pos hc]
          by_cases hk : k = key t ∧ a = toAddress t.address
          · exfalso
            rw [hk.1, hk.2, hc] at h
            simp at h
          · simp [updateReg, hk]
        · rw [if_neg hc]
      have hsome : ((ingestStep key mk m t) k a).isSome := by rw [hstep]; exact h
      rw [ih _ hsome, hstep]

/-- Deduplication keeping first occurrences only returns input elements. -/
theorem dedupFirst_sub (seen : List Nat) (l : List BalTok) (t : BalTok)
    (h : t ∈ dedupFirst seen l) : t ∈ l := by
  induction l generalizing seen with
  | nil => simp [dedupFirst] at h
  | cons x xs ih =>
      rw [dedupFirst] at h
      by_cases hx : toAddress x.address ∈ seen
      · rw [if_pos hx] at h
        exact List.mem_cons_of_mem x (ih seen h)
      · rw [if_neg hx] at h
        rcases List.mem_cons.mp h with h | h
        · simp [h]
        · exact List.mem_cons_of_mem x (ih _ h)

/-- On a list of pairwise distinct normalized addresses none of which was
seen before, deduplication is the identity. -/
theorem dedupFirst_id (seen : List Nat) (l : List BalTok)
    (hseen : ∀ t ∈ l, toAddress t.address ∉ seen)
    (hnodup : (l.map (fun t => toAddress t.address)).Nodup) :
    dedupFirst seen l = l := by
  induction l generalizing seen with
  | nil => rfl
  | cons x xs ih =>
      have hn : (∀ y ∈ xs, ¬toAddress y.address = toAddress x.address) ∧
          (xs.map (fun t => toAddress t.address)).Nodup := by simpa using hnodup
      rw [dedupFirst, if_neg (hseen x (List.mem_cons_self x xs))]
      congr 1
      apply ih
      · intro t ht hmem
        rcases List.mem_cons.mp hmem with h | h
        · exact hn.1 t ht h
        · exact hseen t (List.mem_cons_of_mem x ht) h
      · exact hn.2

end SupportLemmas

/-- Claim C1, counterexample: after merges for owner 1 and then owner 2 on
chain 1, the exposed balances state still holds the entry written during
the owner-1 merge, because set_balances spreads the previous exposed state
rather than replacing it; so the exposed mapping does not contain only
entries produced by merges for the new owner. -/
theorem c1_exposed_residual_counterexample :
    (updateBalancesCallFull 2 1 [(11, mkTok 11 "Y")]
      (updateBalancesCallFull 1 1 [(10, mkTok 10 "X")] initialHookState)).exposed 1 10
      = some (mkTok 10 "X")
    ∧ (updateBalancesCallFull 1 1 [(10, mkTok 10 "X")] initialHookState).dataRef.address = 1
    ∧ (2 : Nat) ≠ 1 := by
  refine ⟨by decide, by decide, by decide⟩

/-- Claim C1, amended: when a merge arrives for an owner different from the
tracked owner, the internal ref cache is reset before the partial is
applied, so the ref cache after the merge (which is also the mapping the
merge call returns) holds only entries of the incoming partial, on the
merged chain; the exposed React state, however, may retain residual
entries of the previous owner. -/
theorem c1_cache_reset_only_new_entries (currentUserAddress chainID : Nat)
    (newRawData : List (Nat × TToken)) (s : HookState)
    (h : toAddress currentUserAddress ≠ s.dataRef.address) :
    ∀ cq aq v,
      (updateBalancesCallFull currentUserAddress chainID newRawData s).dataRef.balances cq aq
        = some v →
      cq = chainID ∧ (aq, v) ∈ newRawData := by
  intro cq aq v hv
  have hbal : (updateBalancesCallFull currentUserAddress chainID newRawData s).dataRef.balances
      = applyRawToMap chainID newRawData emptyChainTokens := by
    show (updateBalancesCall currentUserAddress chainID newRawData s.dataRef).balances = _
    simp [updateBalancesCall, h]
  rw [hbal] at hv
  by_cases hc : cq = chainID
  · subst hc
    rw [applyRawToMap_eq] at hv
    cases hl : lastWrite newRawData aq with
    | none =>
        rw [hl] at hv
        simp [emptyChainTokens] at hv
    | some w =>
        rw [hl] at hv
        have hw : w = v := by simpa using hv
        subst hw
        exact ⟨rfl, lastWrite_mem _ _ _ hl⟩
  · rw [applyRawToMap_ne _ _ _ _ _ hc] at hv
    simp [emptyChainTokens] at hv

/-- Witness for the amended claim C1 at a concrete owner switch. -/
theorem c1_cache_reset_witness :
    toAddress 2 ≠ (updateBalancesCallFull 1 1 [(10, mkTok 10 "X")] initialHookState).dataRef.address
    ∧ ∀ cq aq v,
      (updateBalancesCallFull 2 1 [(11, mkTok 11 "Y")]
        (updateBalancesCallFull 1 1 [(10, mkTok 10 "X")] initialHookState)).dataRef.balances cq aq
        = some v →
      cq = 1 ∧ (aq, v) ∈ [(11, mkTok 11 "Y")] :=
  ⟨by decide, c1_cache_reset_only_new_entries 2 1 [(11, mkTok 11 "Y")] _ (by decide)⟩

/-- Claim C3, counterexample: the nonce reaches 2 after two merges for
owner 1, and drops to 1 on the next merge, for owner 2, because the ref
reset on an owner change also resets the nonce to 0 before the increment;
the nonce is therefore not monotonic across a sequence of merges that
includes an owner change. -/
theorem c3_nonce_decrease_counterexample :
    (updateBalancesCall 1 1 [] (updateBalancesCall 1 1 [] initialDataRef)).nonce = 2
    ∧ (updateBalancesCall 2 1 []
        (updateBalancesCall 1 1 [] (updateBalancesCall 1 1 [] initialDataRef))).nonce = 1 := by
  exact ⟨rfl, rfl⟩

/-- Claim C3, amended: every merge increments the nonce by exactly one
when the owner is unchanged, so the nonce is monotonic across merges for a
fixed owner; a merge for a different owner resets the nonce to 0 before
the increment, leaving it at 1, so it can decrease across an owner
change. -/
theorem c3_nonce_characterization (u c : Nat) (raw : List (Nat × TToken)) (s : TDataRef) :
    (updateBalancesCall u c raw s).nonce =
      if toAddress u = s.address then s.nonce + 1 else 1 := by
  by_cases h : toAddress u = s.address <;> simp [updateBalancesCall, h]

/-- Claim C8: getBalance of the wallet controller returns the zero-value
balance entry, with raw 0 and normalized 0, whenever the balances state
holds no entry for the looked-up chain and address; the function is total,
so no absent value ever reaches the caller. -/
theorem c8_getBalance_zero_default (balances : ChainTokens) (address chainID : Nat)
    (h : balances (if chainID = 0 then 1 else chainID) address = none) :
    walletGetBalance balances address chainID = zeroNormalizedBN
    ∧ zeroNormalizedBN.raw = 0 ∧ zeroNormalizedBN.normalized = 0 := by
  refine ⟨?_, rfl, rfl⟩
  unfold walletGetBalance
  rw [h]

/-- Witness for claim C8 at a concrete empty balances state. -/
theorem c8_getBalance_zero_default_witness :
    emptyChainTokens (if (7 : Nat) = 0 then 1 else 7) 3 = none
    ∧ (walletGetBalance emptyChainTokens 3 7 = zeroNormalizedBN
      ∧ zeroNormalizedBN.raw = 0 ∧ zeroNormalizedBN.normalized = 0) :=
  ⟨rfl, c8_getBalance_zero_default emptyChainTokens 3 7 rfl⟩

/-- Claim C9: the wallet controller getBalance and getToken treat a falsy
chain id of 0 through the logical-or fallback, so a lookup with chain 0 is
exactly the lookup with chain 1, for every balances state and address. -/
theorem c9_falsy_chain_defaults_to_one (balances : ChainTokens) (address : Nat) :
    walletGetBalance balances address 0 = walletGetBalance balances address 1
    ∧ walletGetToken balances address 0 = walletGetToken balances address 1 :=
  ⟨rfl, rfl⟩

/-- First of two colliding base-list tokens for the claim C2 scenario. -/
def tListFirst : TListToken :=
  { address := 100, name := "First", symbol := "FIRST", decimals := 18,
    chainId := some 1, chainID := none, logoURI := none }

/-- Second of two colliding base-list tokens for the claim C2 scenario. -/
def tListSecond : TListToken :=
  { address := 100, name := "Second", symbol := "OVERRIDE", decimals := 18,
    chainId := some 1, chainID := none, logoURI := none }

/-- Base-list token of the cross-tier override scenario. -/
def tListBaseAAA : TListToken :=
  { address := 170, name := "Base", symbol := "BASE", decimals := 18,
    chainId := some 1, chainID := none, logoURI := none }

/-- Extra-list token of the cross-tier override scenario. -/
def tListExtraAAA : TListToken :=
  { address := 170, name := "Extra", symbol := "OVERRIDE", decimals := 18,
    chainId := some 1, chainID := none, logoURI := none }

/-- Claim C2, counterexample: two base lists both carrying the key
(1, address 100) are ingested with the if-not-present guard, so the entry
of the earlier-iterated list wins within the tier; the aggregated registry
exposes the symbol FIRST, not the later OVERRIDE, refuting unconditional
last-write-wins within one precedence tier. -/
theorem c2_within_tier_first_wins_counterexample :
    (aggregatedRegistry (ingestBaseTokens [tListFirst, tListSecond]) emptyRegistry emptyRegistry
        (some 1) (toAddress 100)).map (fun r => r.symbol) = some "FIRST"
    ∧ ("FIRST" : String) ≠ "OVERRIDE" := by
  exact ⟨by decide, by decide⟩

/-- Claim C2, amended: across precedence tiers the later tier wins
unconditionally in the aggregated registry, but within one tier the
first-ingested entry wins: extending the flattened base-tier input never
changes a key that is already bound. -/
theorem c2_precedence_amended (l1 l2 : List TListToken) (k : Option Nat) (a : Nat)
    (base extra custom : Registry) (k2 : Option Nat) (a2 : Nat)
    (h1 : (ingestBaseTokens l1 k a).isSome)
    (h2 : custom k2 a2 = none)
    (h3 : (extra k2 a2).isSome) :
    ingestBaseTokens (l1 ++ l2) k a = ingestBaseTokens l1 k a
    ∧ aggregatedRegistry base extra custom k2 a2 = extra k2 a2 := by
  constructor
  · show ((l1 ++ l2).foldl (ingestStep keyBase mkBaseToken) emptyRegistry) k a = _
    rw [List.foldl_append]
    exact ingest_foldl_pres _ _ l2 _ k a h1
  · unfold aggregatedRegistry
    rw [h2]
    cases he : extra k2 a2 with
    | none => rw [he] at h3; simp at h3
    | some v => rfl

/-- Witness for the amended claim C2: the cross-tier scenario of the spec,
a base entry and an extra entry for the same key, where the aggregated
entry is the extra one, and a base tier extension that leaves the bound
key unchanged. -/
theorem c2_precedence_witness :
    (ingestBaseTokens ([tListBaseAAA] ++ [tListExtraAAA]) (some 1) (toAddress 170)
        = ingestBaseTokens [tListBaseAAA] (some 1) (toAddress 170))
    ∧ aggregatedRegistry (ingestBaseTokens [tListBaseAAA]) (ingestExtraTokens [tListExtraAAA])
        emptyRegistry (some 1) 170 = ingestExtraTokens [tListExtraAAA] (some 1) 170 :=
  c2_precedence_amended [tListBaseAAA] [tListExtraAAA] (some 1) (toAddress 170)
    (ingestBaseTokens [tListBaseAAA]) (ingestExtraTokens [tListExtraAAA]) emptyRegistry
    (some 1) 170 (by decide) (by decide) (by decide)

/-- Legacy token carrying its chain only under the chainID spelling, for
the claim C5 counterexample. -/
def tListLegacy : TListToken :=
  { address := 200, name := "Legacy", symbol := "LEG", decimals := 18,
    chainId := none, chainID := some 5, logoURI := none }

/-- Claim C5, counterexample: the base-list ingestion reads only the
chainId spelling, so a base-list token declaring its chain solely as
chainID 5 is not stored under chain 5; it lands under the undefined chain
key instead. -/
theorem c5_base_spelling_counterexample :
    ingestBaseTokens [tListLegacy] (some 5) (toAddress 200) = none
    ∧ ingestBaseTokens [tListLegacy] none (toAddress 200) = some (mkBaseToken tListLegacy) := by
  exact ⟨by decide, by decide⟩

/-- Claim C5, amended: the extra-list and custom-token ingestion paths
accept either chain id spelling and store the entry under its declared
chain with the internal chainID field set to that chain; the base-list
path reads only the chainId spelling. -/
theorem c5_spelling_amended (t : TListToken) (c : Nat)
    (h : (t.chainId = some c ∧ t.chainID = none) ∨ (t.chainId = none ∧ t.chainID = some c)) :
    (ingestExtraTokens [t] (some c) (toAddress t.address) = some (mkExtraToken t)
      ∧ (mkExtraToken t).chainID = some c)
    ∧ (ingestCustomTokens [t] (some c) (toAddress t.address) = some (mkCustomToken t)
      ∧ (mkCustomToken t).chainID = some c) := by
  rcases h with ⟨h1, h2⟩ | ⟨h1, h2⟩ <;>
    simp [ingestExtraTokens, ingestCustomTokens, ingestStep, keyExtra, keyCustom,
      mkExtraToken, mkCustomToken, updateReg, emptyRegistry, h1, h2]

/-- Token carrying its chain only under the chainId spelling. -/
def tListOnlyLower : TListToken :=
  { address := 300, name := "Lower", symbol := "LOW", decimals := 18,
    chainId := some 3, chainID := none, logoURI := none }

/-- Witness for the amended claim C5 at a token declaring only chainId. -/
theorem c5_spelling_witness :
    (ingestExtraTokens [tListOnlyLower] (some 3) (toAddress tListOnlyLower.address)
        = some (mkExtraToken tListOnlyLower)
      ∧ (mkExtraToken tListOnlyLower).chainID = some 3)
    ∧ (ingestCustomTokens [tListOnlyLower] (some 3) (toAddress tListOnlyLower.address)
        = some (mkCustomToken tListOnlyLower)
      ∧ (mkCustomToken tListOnlyLower).chainID = some 3) :=
  c5_spelling_amended tListOnlyLower 3 (Or.inl ⟨rfl, rfl⟩)

/-- One available token, on chain 1 at address 5, for the claim C6
scenarios. -/
def availOne : List BalTok :=
  [{ address := 5, chainID := 1, decimals := none, name := none, symbol := none }]

/-- Externally supplied token with the same address as the available token
but on chain 137. -/
def tok137 : TToken :=
  { address := 5, name := "Cross", symbol := "CRS", decimals := 18, chainID := 137,
    logoURI := none, value := 0, balance := zeroNormalizedBN }

/-- Externally supplied token whose address matches the available token. -/
def tok5 : TToken :=
  { address := 5, name := "Known", symbol := "KNW", decimals := 18, chainID := 1,
    logoURI := none, value := 0, balance := zeroNormalizedBN }

/-- Externally supplied token at a fresh address 9. -/
def tok9 : TToken :=
  { address := 9, name := "Fresh", symbol := "FRS", decimals := 18, chainID := 1,
    logoURI := none, value := 0, balance := zeroNormalizedBN }

/-- A marker balances value distinguishable from the empty one. -/
def markerBalances : ChainTokens := fun _ _ => some (mkTok 99 "MARK")

/-- Claim C6, counterexample: the identity (chain 137, address 5) is not
present among the available tokens, which sit on chain 1 only, yet the
refresh-with-list call returns the current balances unchanged and never
invokes the refresh, because the dedup filter compares addresses only and
ignores the chain id. -/
theorem c6_address_only_dedup_counterexample :
    onRefreshWithList availOne emptyChainTokens (fun _ => markerBalances) [tok137]
      = emptyChainTokens
    ∧ (∀ av ∈ availOne, ¬(av.chainID = tok137.chainID ∧ av.address = toAddress tok137.address))
    ∧ markerBalances 137 5 = some (mkTok 99 "MARK")
    ∧ emptyChainTokens 137 5 = none := by
  refine ⟨rfl, by decide, rfl, rfl⟩

/-- Claim C6, amended: the refresh-with-list operation fetches exactly the
supplied tokens whose normalized address matches no currently available
token, with the chain id not consulted; when every supplied token collides
by address with a known token, the current balances are returned
unchanged. -/
theorem c6_refresh_with_list_amended (availableTokens : List BalTok) (balances : ChainTokens)
    (onRefresh : List BalTok → ChainTokens) (newTokenList : List TToken) :
    ((∀ t ∈ newTokenList, ∃ av ∈ availableTokens, av.address = toAddress t.address) →
      onRefreshWithList availableTokens balances onRefresh newTokenList = balances)
    ∧ (∀ t ∈ newTokenList,
        (∀ av ∈ availableTokens, av.address ≠ toAddress t.address) →
        ∃ l, onRefreshWithList availableTokens balances onRefresh newTokenList = onRefresh l
          ∧ toBalTok t ∈ l
          ∧ ∀ u ∈ l, ∀ av ∈ availableTokens, av.address ≠ u.address) := by
  constructor
  · intro h
    have hfil : (newTokenList.map toBalTok).filter
        (fun t => !(availableTokens.any (fun av => av.address == t.address))) = [] := by
      rw [List.filter_eq_nil_iff]
      intro bt hbt
      rcases List.mem_map.mp hbt with ⟨t, ht, rfl⟩
      rcases h t ht with ⟨av, hav, havd⟩
      simp only [Bool.not_eq_true', Bool.not_eq_false]
      rw [List.any_eq_true]
      exact ⟨av, hav, by simp [toBalTok, havd]⟩
    simp only [onRefreshWithList, hfil]
    rfl
  · intro t ht hdiff
    have hany : (availableTokens.any (fun av => av.address == (toBalTok t).address)) = false := by
      rw [List.any_eq_false]
      intro av hav
      simp only [toBalTok, beq_iff_eq]
      exact hdiff av hav
    have hmem : toBalTok t ∈ (newTokenList.map toBalTok).filter
        (fun u => !(availableTokens.any (fun av => av.address == u.address))) := by
      refine List.mem_filter.mpr ⟨List.mem_map_of_mem toBalTok ht, ?_⟩
      rw [hany]
      rfl
    have hlen : 0 < ((newTokenList.map toBalTok).filter
        (fun u => !(availableTokens.any (fun av => av.address == u.address)))).length :=
      List.length_pos.mpr (List.ne_nil_of_mem hmem)
    refine ⟨_, ?_, hmem, ?_⟩
    · simp only [onRefreshWithList]
      rw [if_pos hlen]
    · intro u hu av hav
      have hpu := (List.mem_filter.mp hu).2
      rw [Bool.not_eq_true'] at hpu
      rw [List.any_eq_false] at hpu
      have hud := hpu av hav
      simpa using hud

/-- Witness for the amended claim C6: an all-known list leaves the
balances unchanged, and a fresh-address list reaches the refresh with the
fresh token included. -/
theorem c6_refresh_with_list_witness :
    onRefreshWithList availOne emptyChainTokens (fun _ => markerBalances) [tok5]
      = emptyChainTokens
    ∧ ∃ l : List BalTok, onRefreshWithList availOne emptyChainTokens (fun _ => markerBalances) [tok9]
        = (fun _ => markerBalances) l
      ∧ toBalTok tok9 ∈ l
      ∧ ∀ u ∈ l, ∀ av ∈ availOne, av.address ≠ u.address :=
  ⟨(c6_refresh_with_list_amended availOne emptyChainTokens (fun _ => markerBalances) [tok5]).1
      (by decide),
    (c6_refresh_with_list_amended availOne emptyChainTokens (fun _ => markerBalances) [tok9]).2
      tok9 (by decide) (by decide)⟩

/-- Well-formed token list used in the claim C7 scenario. -/
def goodTokens : List TListToken :=
  [{ address := 400, name := "Good", symbol := "GOOD", decimals := 18,
     chainId := some 1, chainID := none, logoURI := none }]

/-- Claim C7: a fulfilled response whose body is not a well-formed list
document (as a malformed JSON payload served with status 200 produces)
makes the token-spreading loop throw, aborting the whole base-list
ingestion, so the tokens of the well-formed list are never ingested; only
rejected fetches are isolated per URI, in which case the well-formed list
is ingested. -/
theorem c7_malformed_document_aborts_ingestion :
    buildBaseFromOutcomes
        [FetchOutcome.fulfilled none, FetchOutcome.fulfilled (some goodTokens)]
      = Except.error ()
    ∧ ∃ r, buildBaseFromOutcomes
          [FetchOutcome.rejected, FetchOutcome.fulfilled (some goodTokens)]
        = Except.ok r
      ∧ (r (some 1) (toAddress 400)).isSome := by
  exact ⟨rfl, ⟨ingestBaseTokens goodTokens, rfl, by decide⟩⟩

/-- A zero-address token descriptor on chain 1. -/
def zeroTok : BalTok := { address := 0, chainID := 1, decimals := none, name := none, symbol := none }

/-- A regular token descriptor at address 4 on chain 1. -/
def balTok4 : BalTok := { address := 4, chainID := 1, decimals := none, name := none, symbol := none }

/-- A fetch oracle returning no entries and no error. -/
def trivialFetch : List BalTok → FetchResult := fun _ => { raw := [], err := none }

/-- Two distinct token descriptors on chain 3 for the claim C4 witness. -/
def c4Toks : List BalTok :=
  [{ address := 1, chainID := 3, decimals := none, name := none, symbol := none },
   { address := 2, chainID := 3, decimals := none, name := none, symbol := none }]

/-- Claim C10, counterexample: the automatic refresh trigger keeps a
zero-address token of the active chain in its issued batches, because it
lacks the zero-address filter that onUpdate applies, so a zero-address
token is fetched by the automatic refresh; onUpdate, by contrast, drops it
before any batch is formed. -/
theorem c10_trigger_zero_address_counterexample :
    triggerBatches 1 [zeroTok] = [[zeroTok]]
    ∧ isZeroAddress zeroTok.address = true
    ∧ (onUpdate trivialFetch 1 7 [zeroTok] initialDataRef).batches = [] := by
  refine ⟨?_, by decide, by decide⟩
  rw [triggerBatches]
  have hf : [zeroTok].filter (fun t => t.chainID == 1) = [zeroTok] := by decide
  rw [hf]
  have hd : dedupFirst [] [zeroTok] = [zeroTok] := by decide
  rw [hd]
  have hnil : chunk500 [] = [] := by rw [chunk500]
  calc chunk500 [zeroTok]
      = [zeroTok].take 500 :: chunk500 ([zeroTok].drop 500) := by rw [chunk500]
    _ = [[zeroTok]] := by
          rw [show [zeroTok].drop 500 = [] from rfl, hnil]
          simp

/-- Claim C10, amended: in the manual full refresh onUpdate, zero-address
tokens and tokens of a foreign chain never reach an issued batch, and,
provided the balance service only reports addresses of the requested
batch, never appear in the cache-merged returned mapping either; the
automatic refresh trigger, however, drops only foreign-chain tokens and
does fetch zero-address tokens of the active chain. -/
theorem c10_filter_amended (fetch : List BalTok → FetchResult)
    (chainID userAddress : Nat) (tokenList : List BalTok) (data0 : TDataRef)
    (horacle : ∀ b a v, (a, v) ∈ (fetch b).raw → ∃ t ∈ b, toAddress t.address = a) :
    (∀ b ∈ (onUpdate fetch chainID userAddress tokenList data0).batches,
        ∀ t ∈ b, isZeroAddress t.address = false ∧ t.chainID = chainID)
    ∧ (∀ cq a, ((onUpdate fetch chainID userAddress tokenList data0).updated cq a).isSome →
        cq = chainID ∧ ∃ t ∈ tokenList, isZeroAddress t.address = false ∧ t.chainID = chainID
          ∧ toAddress t.address = a) := by
  by_cases hnil : (tokenList.filter (fun t => !(isZeroAddress t.address))).length = 0
  · have he : onUpdate fetch chainID userAddress tokenList data0 =
        { updated := emptyChainTokens, dataRef := data0, batches := [], errState := none } := by
      simp only [onUpdate, if_pos hnil]
    rw [he]
    constructor
    · intro b hb
      simp at hb
    · intro cq a hs
      simp [emptyChainTokens] at hs
  · have hbatches : (onUpdate fetch chainID userAddress tokenList data0).batches =
        chunk500 (dedupFirst []
          ((tokenList.filter (fun t => !(isZeroAddress t.address))).filter
            (fun t => t.chainID == chainID))) := by
      simp only [onUpdate, if_neg hnil]
    have hupdated : (onUpdate fetch chainID userAddress tokenList data0).updated =
        applyRawToMap chainID
          (((onUpdate fetch chainID userAddress tokenList data0).batches.map
            (fun b => (fetch b).raw)).flatten) emptyChainTokens := by
      simp only [onUpdate, if_neg hnil]
      rw [foldl_onUpdateStep_updated]
    have hmem : ∀ b ∈ chunk500 (dedupFirst []
        ((tokenList.filter (fun t => !(isZeroAddress t.address))).filter
          (fun t => t.chainID == chainID))),
        ∀ t ∈ b, t ∈ tokenList ∧ isZeroAddress t.address = false ∧ t.chainID = chainID := by
      intro b hb t ht
      have h2 := dedupFirst_sub _ _ _ (chunk500_mem_sub _ _ _ hb ht)
      have h3 := List.mem_filter.mp h2
      have h4 := List.mem_filter.mp h3.1
      refine ⟨h4.1, ?_, ?_⟩
      · simpa using h4.2
      · simpa using h3.2
    constructor
    · intro b hb t ht
      rw [hbatches] at hb
      exact ⟨(hmem b hb t ht).2.1, (hmem b hb t ht).2.2⟩
    · intro cq a hs
      rw [hupdated] at hs
      by_cases hcq : cq = chainID
      · subst hcq
        rw [applyRawToMap_eq] at hs
        cases hl : lastWrite
            (((onUpdate fetch cq userAddress tokenList data0).batches.map
              (fun b => (fetch b).raw)).flatten) a with
        | none =>
            rw [hl] at hs
            simp [emptyChainTokens] at hs
        | some v =>
            have hmemf := lastWrite_mem _ _ _ hl
            rcases List.mem_flatten.mp hmemf with ⟨raws, hraws, hmemr⟩
            rcases List.mem_map.mp hraws with ⟨b, hb, rfl⟩
            rcases horacle b a v hmemr with ⟨t, htb, hta⟩
            rw [hbatches] at hb
            have hprops := hmem b hb t htb
            exact ⟨rfl, t, hprops.1, hprops.2.1, hprops.2.2, hta⟩
      · rw [applyRawToMap_ne _ _ _ _ _ hcq] at hs
        simp [emptyChainTokens] at hs

/-- Witness for the amended claim C10 at a concrete token list containing
a zero-address token and a regular one. -/
theorem c10_filter_witness :
    (∀ b ∈ (onUpdate trivialFetch 1 7 [zeroTok, balTok4] initialDataRef).batches,
        ∀ t ∈ b, isZeroAddress t.address = false ∧ t.chainID = 1)
    ∧ (∀ cq a, ((onUpdate trivialFetch 1 7 [zeroTok, balTok4] initialDataRef).updated cq a).isSome →
        cq = 1 ∧ ∃ t ∈ [zeroTok, balTok4], isZeroAddress t.address = false ∧ t.chainID = 1
          ∧ toAddress t.address = a) :=
  c10_filter_amended trivialFetch 1 7 [zeroTok, balTok4] initialDataRef
    (by intro b a v h; simp [trivialFetch] at h)

/-- Claim C4: a full manual refresh splits the deduplicated same-chain
token set into ceiling of N over 500 sequential batches of at most 500
tokens each, and the returned merged mapping is exactly the in-order
application of every batch fetch result, independent of batch errors, so
entries obtained from batches other than a failing one are preserved. -/
theorem c4_batching_and_error_isolation (fetch : List BalTok → FetchResult)
    (chainID userAddress : Nat) (tokenList : List BalTok) (data0 : TDataRef)
    (hchain : ∀ t ∈ tokenList, t.chainID = chainID)
    (hzero : ∀ t ∈ tokenList, isZeroAddress t.address = false)
    (hnodup : (tokenList.map (fun t => toAddress t.address)).Nodup) :
    (onUpdate fetch chainID userAddress tokenList data0).batches.length
      = (tokenList.length + 499) / 500
    ∧ (∀ b ∈ (onUpdate fetch chainID userAddress tokenList data0).batches, b.length ≤ 500)
    ∧ ∀ a, (onUpdate fetch chainID userAddress tokenList data0).updated chainID a
        = lastWrite (((onUpdate fetch chainID userAddress tokenList data0).batches.map
            (fun b => (fetch b).raw)).flatten) a := by
  have hfz : tokenList.filter (fun t => !(isZeroAddress t.address)) = tokenList := by
    rw [List.filter_eq_self]
    intro t ht
    rw [hzero t ht]
    rfl
  by_cases hnil : tokenList.length = 0
  · have hempty : tokenList = [] := List.length_eq_zero.mp hnil
    subst hempty
    refine ⟨by norm_num [onUpdate], ?_, ?_⟩
    · intro b hb
      simp [onUpdate] at hb
    · intro a
      simp [onUpdate, emptyChainTokens, lastWrite, lastWriteFrom]
  · have hnil2 : ¬(tokenList.filter (fun t => !(isZeroAddress t.address))).length = 0 := by
      rw [hfz]
      exact hnil
    have hfc : tokenList.filter (fun t => t.chainID == chainID) = tokenList := by
      rw [List.filter_eq_self]
      intro t ht
      simp [hchain t ht]
    have hdd : dedupFirst [] tokenList = tokenList :=
      dedupFirst_id [] tokenList (fun t _ h => by simp at h) hnodup
    have hbatches : (onUpdate fetch chainID userAddress tokenList data0).batches =
        chunk500 tokenList := by
      simp only [onUpdate, hfz, hfc, hdd]
      rw [if_neg hnil]
    have hupdated : (onUpdate fetch chainID userAddress tokenList data0).updated =
        applyRawToMap chainID
          (((onUpdate fetch chainID userAddress tokenList data0).batches.map
            (fun b => (fetch b).raw)).flatten) emptyChainTokens := by
      simp only [onUpdate, if_neg hnil2]
      rw [foldl_onUpdateStep_updated]
    refine ⟨?_, ?_, ?_⟩
    · rw [hbatches]
      exact chunk500_length tokenList
    · intro b hb
      rw [hbatches] at hb
      exact chunk500_mem_length tokenList b hb
    · intro a
      rw [hupdated, applyRawToMap_eq]
      cases hl : lastWrite
          (((onUpdate fetch chainID userAddress tokenList data0).batches.map
            (fun b => (fetch b).raw)).flatten) a <;>
        simp [hl, emptyChainTokens]

/-- Witness for claim C4 at a concrete two-token list and the no-result
oracle. -/
theorem c4_batching_witness :
    (onUpdate trivialFetch 3 7 c4Toks initialDataRef).batches.length
      = (c4Toks.length + 499) / 500
    ∧ (∀ b ∈ (onUpdate trivialFetch 3 7 c4Toks initialDataRef).batches, b.length ≤ 500)
    ∧ ∀ a, (onUpdate trivialFetch 3 7 c4Toks initialDataRef).updated 3 a
        = lastWrite (((onUpdate trivialFetch 3 7 c4Toks initialDataRef).batches.map
            (fun b => (trivialFetch b).raw)).flatten) a :=
  c4_batching_and_error_isolation trivialFetch 3 7 c4Toks initialDataRef
    (by decide) (by decide) (by decide)
